import Mathlib

/-!
Shallow embedding of the MIDI-Link indexer core (`src/index.ts`).

The embedding models:
- the mutable database state (devices, midi token records, retry queue) as a
  `DBState` record threaded explicitly;
- every network/database outcome that the code branches on as an explicit
  environment value (`FetchOutcome`, `IndexEnv`, the historical event list),
  so theorems can quantify over them;
- JavaScript exceptions (a `res.json()` body that fails to parse has no
  handler anywhere in the source) as `Except Unit`;
- `console.log` / `console.error` calls as an accumulated `List LogEvent`.

Field and function names follow the source where Lean allows it.
-/

namespace MidiIndexer

/-- Metadata `properties` object of a MIDI metadata document: `device` and
`manufacturer` are both optional strings at runtime (`MIDIMetadata` type). -/
structure MIDIProperties where
  device : Option String
  manufacturer : Option String
deriving DecidableEq

/-- A parsed metadata document (`MIDIMetadata`). -/
structure MIDIMetadata where
  properties : MIDIProperties
deriving DecidableEq

/-- A device row (`db.devices`): id assigned by the database, unique name,
manufacturer. -/
structure Device where
  id : Nat
  name : String
  manufacturer : String
deriving DecidableEq

/-- A midi token row (`db.midi`): on-chain token id, metadata payload,
device reference, creator address. -/
structure TokenRecord where
  id : Nat
  metadata : MIDIMetadata
  device : Nat
  createdBy : String
deriving DecidableEq

/-- A retry-queue row (`db.queue`): token id, originating operator address,
last error message, attempt count. -/
structure QueueEntry where
  id : Nat
  operator : String
  error : String
  attempts : Nat
deriving DecidableEq

/-- The database error object returned by `db.midi.create` (`error.details`,
`error.message`). -/
structure DbError where
  details : String
  message : String
deriving DecidableEq

/-- The persistent database state: the three tables plus the id the database
will assign to the next created device row. -/
structure DBState where
  devices : List Device
  midi : List TokenRecord
  queue : List QueueEntry
  nextDeviceId : Nat
deriving DecidableEq

/-- Console output, one constructor per `console.log` / `console.error` call
site in the source. `eventReceived` stands for the four `console.log` calls at
the top of the `TransferSingle` handler; `targetEventFound` is the (misnamed)
`console.log("target event found!!!")` that fires when no matching historical
event exists. -/
inductive LogEvent where
  | fetchError (uri : String)
  | metadataIs
  | deviceCreateFailed
  | midiCreateError
  | targetEventFound
  | operatorFetchFailed (id : Nat)
  | eventReceived (operator fromAddr toAddr : String) (id : Nat)
deriving DecidableEq

/-- Outcome of the HTTP fetch of the metadata URI: `notOk` is a non-2xx
response (`!res.ok`), `badBody` is a body on which `res.json()` throws, `ok m`
is a body parsing to the document `m`. -/
inductive FetchOutcome where
  | notOk
  | badBody
  | ok (m : MIDIMetadata)
deriving DecidableEq

/-- Environment for one `indexById` invocation: the metadata fetch outcome,
the rewritten URI (only used in the error log), whether `db.devices.create`
succeeds, and the error (if any) returned by `db.midi.create`. -/
structure IndexEnv where
  fetch : FetchOutcome
  uri : String
  deviceCreateOk : Bool
  midiCreateError : Option DbError
deriving DecidableEq

/-- The zero address `ethers.constants.AddressZero`. -/
def addressZero : String := "0x0000000000000000000000000000000000000000"

/-- JavaScript truthiness of an optional string: `undefined` and `""` are
falsy, every other string is truthy (the `if (metadata.properties.device)`
check). -/
def strTruthy (o : Option String) : Bool :=
  match o with
  | some s => !s.isEmpty
  | none => false

/-- JavaScript template-string rendering of an optional string: `undefined`
interpolates as the text `"undefined"`. -/
def jsOptString (o : Option String) : String :=
  match o with
  | some s => s
  | none => "undefined"

/-- Result of one `indexById` call that returned (did not throw): the
`{ error }` value, the database state afterwards, and the console output. -/
structure IndexOutput where
  error : Option String
  st : DBState
  logs : List LogEvent
deriving DecidableEq

/-- The tail of `indexById` after a device row has been resolved: the single
`db.midi.create` call, its error branch, and the success write. Modelled from
the spec for the database collaborator (`db.ts` is not part of the given
sources): `midi.create(id, metadata, device, createdBy)` inserts the token
row and returns `{error}` on failure. -/
def finishMidi (st : DBState) (device : Device) (id : Nat) (operator : String)
    (m : MIDIMetadata) (e : IndexEnv) (logs : List LogEvent) : Except Unit IndexOutput :=
  match e.midiCreateError with
  | some er =>
    Except.ok
      ⟨some ("failed creating midi: " ++ er.details ++ " " ++ er.message), st,
        logs ++ [LogEvent.midiCreateError]⟩
  | none =>
    Except.ok
      ⟨none,
        { st with midi := st.midi ++ [⟨id, m, device.id, operator⟩] },
        logs⟩

/-- The combined `fetchMetadata` + `indexById` operation. `FetchOutcome.notOk`
is the `!res.ok` early return (`fetchMetadata` returns `undefined`, so
`indexById` returns the `failed fetching metadata` error); `badBody` is
`res.json()` throwing, which no caller catches, so the whole call throws
(`Except.error`). On a parsed document the source checks
`metadata.properties.device` for truthiness, looks the device up by exact
name (`db.devices.fetchByName`), creates it when absent
(`db.devices.create`, modelled from the spec: inserts a row with
`manufacturer` defaulted to the empty string, returning the created row, or
fails), and finally writes the midi row. -/
def indexById (st : DBState) (id : Nat) (operator : String) (e : IndexEnv) :
    Except Unit IndexOutput :=
  match e.fetch with
  | FetchOutcome.notOk =>
    Except.ok ⟨some "failed fetching metadata", st, [LogEvent.fetchError e.uri]⟩
  | FetchOutcome.badBody => Except.error ()
  | FetchOutcome.ok m =>
    if strTruthy m.properties.device then
      match st.devices.find? (fun dv => dv.name == m.properties.device.getD "") with
      | none =>
        if e.deviceCreateOk then
          finishMidi
            { st with
                devices := st.devices ++
                  [⟨st.nextDeviceId, m.properties.device.getD "",
                    m.properties.manufacturer.getD ""⟩],
                nextDeviceId := st.nextDeviceId + 1 }
            ⟨st.nextDeviceId, m.properties.device.getD "",
              m.properties.manufacturer.getD ""⟩
            id operator m e [LogEvent.metadataIs]
        else
          Except.ok
            ⟨some ("creating device failed failed for "
                ++ jsOptString m.properties.manufacturer ++ ": "
                ++ m.properties.device.getD ""), st,
              [LogEvent.metadataIs, LogEvent.deviceCreateFailed]⟩
      | some device => finishMidi st device id operator m e [LogEvent.metadataIs]
    else
      Except.ok ⟨some "no metadata.properties.device property", st, [LogEvent.metadataIs]⟩

/-- Result of the `TransferSingle` event handler: new state, console output,
and whether the handler reached `indexById` at all. -/
structure HandlerOutput where
  st : DBState
  logs : List LogEvent
  indexAttempted : Bool
deriving DecidableEq

/-- The `TransferSingle` subscription handler. Logs the event, and only when
`from === constants.AddressZero` runs `indexById`; on a returned error it
calls `db.queue.create(id, error, operator)` — modelled from the spec:
`enqueue` inserts a new entry with attempt count initialized to 0. A thrown
`indexById` (bad metadata body) propagates out of the async handler
uncaught. -/
def handleTransferSingle (st : DBState) (operator fromAddr toAddr : String)
    (id : Nat) (e : IndexEnv) : Except Unit HandlerOutput :=
  if fromAddr == addressZero then
    match indexById st id operator e with
    | Except.error u => Except.error u
    | Except.ok o =>
      match o.error with
      | some msg =>
        Except.ok
          ⟨{ o.st with queue := o.st.queue ++ [⟨id, operator, msg, 0⟩] },
            LogEvent.eventReceived operator fromAddr toAddr id :: o.logs, true⟩
      | none =>
        Except.ok ⟨o.st, LogEvent.eventReceived operator fromAddr toAddr id :: o.logs, true⟩
  else
    Except.ok ⟨st, [LogEvent.eventReceived operator fromAddr toAddr id], false⟩

/-- A historical `TransferSingle` event as returned by `queryFilter`: the
fields the source reads (`args.operator`, the `from` address the filter
matches on, `args.id`). -/
structure MintEvent where
  operator : String
  fromAddr : String
  id : Nat
deriving DecidableEq

/-- The `fetchOriginalMinter` helper: queries historical `TransferSingle`
events whose `from` is the zero address, finds one whose `id` matches, and
returns its `operator`; when none matches it logs (the backwards
`"target event found!!!"` message) and returns `undefined`. -/
def fetchOriginalMinter (events : List MintEvent) (id : Nat) :
    Option String × List LogEvent :=
  let transferFromSingleEvents := events.filter (fun ev => ev.fromAddr == addressZero)
  match transferFromSingleEvents.find? (fun ev => ev.id == id) with
  | none => (none, [LogEvent.targetEventFound])
  | some ev => (some ev.operator, [])

/-- Result of one reconciliation sweep: final state, the ids for which the
sweep attempted re-indexing (invoked `fetchOriginalMinter` /
`indexById`), and the console output. -/
structure SyncOutput where
  st : DBState
  attempted : List Nat
  logs : List LogEvent
deriving DecidableEq

/-- The `for (const id of unqueueDiff)` loop body of `sync`. When
`fetchOriginalMinter` returns `undefined` the source logs and `return`s,
ending the whole sweep. Otherwise it calls `indexById` WITHOUT awaiting it:
the state effect happens but the result is discarded, and a thrown
`indexById` becomes an unhandled rejection that does not stop the loop. -/
def syncLoop (events : List MintEvent) (env : Nat → IndexEnv) :
    List Nat → DBState → SyncOutput
  | [], st => ⟨st, [], []⟩
  | id :: rest, st =>
    match fetchOriginalMinter events id with
    | (none, lg) => ⟨st, [id], lg ++ [LogEvent.operatorFetchFailed id]⟩
    | (some operator, lg) =>
      match indexById st id operator (env id) with
      | Except.error _ =>
        let out := syncLoop events env rest st
        ⟨out.st, id :: out.attempted, lg ++ out.logs⟩
      | Except.ok o =>
        let out := syncLoop events env rest o.st
        ⟨out.st, id :: out.attempted, lg ++ o.logs ++ out.logs⟩

/-- The periodic `sync` reconciliation sweep. Reads the on-chain counter, all
midi rows, and up to 1000 queue rows. Only when `currentID !== data.length`
does it build `[1..currentID]`, subtract the database ids and then the queue
ids, and run the loop over the remainder. -/
def sync (currentId : Nat) (events : List MintEvent) (st : DBState)
    (env : Nat → IndexEnv) : SyncOutput :=
  let data := st.midi
  let queue := st.queue.take 1000
  let queueIDs := queue.map QueueEntry.id
  if currentId != data.length then
    let tokenIDs := List.range' 1 currentId
    let dbRowIDs := data.map TokenRecord.id
    let diff := tokenIDs.filter (fun id => !(dbRowIDs.contains id))
    let unqueueDiff := diff.filter (fun id => !(queueIDs.contains id))
    syncLoop events env unqueueDiff st
  else
    ⟨st, [], []⟩

/-- The set of ids one sweep is expected to re-drive:
`[1..currentId]` minus the database ids minus the (bounded-fetch) queue ids,
written exactly as the source computes `unqueueDiff`. -/
def missingIds (currentId : Nat) (st : DBState) : List Nat :=
  ((List.range' 1 currentId).filter
      (fun id => !((st.midi.map TokenRecord.id).contains id))).filter
    (fun id => !(((st.queue.take 1000).map QueueEntry.id).contains id))

/-- The `db.queue.update({id, attempts, error})` call. Modelled from the spec
for the database collaborator (`db.ts` is not part of the given sources):
records the new attempt count and error message on the entry with that id. -/
def queueUpdate (st : DBState) (id attempts : Nat) (err : String) : DBState :=
  { st with
      queue := st.queue.map (fun r =>
        if r.id = id then { r with attempts := attempts, error := err } else r) }

/-- Result of one queue-drain tick: final state; `attempted` — ids for which
`indexById` was invoked, in order; `processed` — entries whose `indexById`
call returned, each with its returned error (if any); `updates` — the
`db.queue.update` calls made, as (id, new attempt count, error message);
`aborted` — whether a thrown `indexById` ended the tick early. -/
structure DrainOutput where
  st : DBState
  attempted : List Nat
  processed : List (QueueEntry × Option String)
  updates : List (Nat × Nat × String)
  aborted : Bool
  logs : List LogEvent
deriving DecidableEq

/-- The `for (const row of queue)` loop of the drain interval: each entry is
awaited in order; a returned error triggers `db.queue.update` with
`row.attempts + 1` and the message; a thrown `indexById` rejects the async
interval callback, abandoning the rest of the batch. -/
def drainLoop (env : Nat → IndexEnv) :
    List QueueEntry → DBState → DrainOutput
  | [], st => ⟨st, [], [], [], false, []⟩
  | r :: rest, st =>
    match indexById st r.id r.operator (env r.id) with
    | Except.error _ => ⟨st, [r.id], [], [], true, []⟩
    | Except.ok o =>
      match o.error with
      | some msg =>
        let st1 := queueUpdate o.st r.id (r.attempts + 1) msg
        let out := drainLoop env rest st1
        ⟨out.st, r.id :: out.attempted, (r, some msg) :: out.processed,
          (r.id, r.attempts + 1, msg) :: out.updates, out.aborted,
          o.logs ++ out.logs⟩
      | none =>
        let out := drainLoop env rest o.st
        ⟨out.st, r.id :: out.attempted, (r, none) :: out.processed,
          out.updates, out.aborted, o.logs ++ out.logs⟩

/-- One tick of the queue-drain interval: `db.queue.fetch(10)` (modelled from
the spec: returns up to `limit` entries in queue order) followed by the
sequential loop. -/
def drainTick (st : DBState) (env : Nat → IndexEnv) : DrainOutput :=
  drainLoop env (st.queue.take 10) st

/-- The empty database. -/
def emptyDB : DBState := ⟨[], [], [], 0⟩

/-! Helper lemmas about `indexById` used by several theorems below. -/

/-- finishMidi never touches the queue. -/
lemma finishMidi_queue (st : DBState) (device : Device) (id : Nat) (operator : String)
    (m : MIDIMetadata) (e : IndexEnv) (logs : List LogEvent) (o : IndexOutput)
    (h : finishMidi st device id operator m e logs = Except.ok o) :
    o.st.queue = st.queue := by
  unfold finishMidi at h
  split at h <;> simp only [Except.ok.injEq] at h <;> subst h <;> rfl

/-- finishMidi either leaves the midi table unchanged (with an error) or
appends exactly one token row for `id` referencing `device` (with no
error). -/
lemma finishMidi_midi (st : DBState) (device : Device) (id : Nat) (operator : String)
    (m : MIDIMetadata) (e : IndexEnv) (logs : List LogEvent) (o : IndexOutput)
    (h : finishMidi st device id operator m e logs = Except.ok o) :
    (o.st.midi = st.midi ∧ o.st.devices = st.devices ∧ o.error.isSome) ∨
      (o.st.midi = st.midi ++ [⟨id, m, device.id, operator⟩] ∧
        o.st.devices = st.devices ∧ o.error = none) := by
  unfold finishMidi at h
  split at h <;> simp only [Except.ok.injEq] at h <;> subst h
  · exact Or.inl ⟨rfl, rfl, rfl⟩
  · exact Or.inr ⟨rfl, rfl, rfl⟩

/-- indexById never touches the queue. -/
lemma indexById_queue (st : DBState) (id : Nat) (operator : String) (e : IndexEnv)
    (o : IndexOutput) (h : indexById st id operator e = Except.ok o) :
    o.st.queue = st.queue := by
  unfold indexById at h
  split at h
  · simp only [Except.ok.injEq] at h; subst h; rfl
  · exact absurd h (by simp)
  · split at h
    · split at h
      · split at h
        · have hq := finishMidi_queue _ _ _ _ _ _ _ _ h
          exact hq
        · simp only [Except.ok.injEq] at h; subst h; rfl
      · exact finishMidi_queue _ _ _ _ _ _ _ _ h
    · simp only [Except.ok.injEq] at h; subst h; rfl

/-- indexById grows the midi table by at most the one row it writes; the row,
when written, carries the requested id and the successful result. -/
lemma indexById_midi (st : DBState) (id : Nat) (operator : String) (e : IndexEnv)
    (o : IndexOutput) (h : indexById st id operator e = Except.ok o) :
    (o.st.midi = st.midi ∧ o.error.isSome) ∨
      (∃ t : TokenRecord, o.st.midi = st.midi ++ [t] ∧ t.id = id ∧ o.error = none) := by
  unfold indexById at h
  split at h
  · simp only [Except.ok.injEq] at h; subst h; exact Or.inl ⟨rfl, rfl⟩
  · exact absurd h (by simp)
  · split at h
    · split at h
      · split at h
        · rcases finishMidi_midi _ _ _ _ _ _ _ _ h with ⟨h1, _, h3⟩ | ⟨h1, _, h3⟩
          · exact Or.inl ⟨h1, h3⟩
          · exact Or.inr ⟨_, h1, rfl, h3⟩
        · simp only [Except.ok.injEq] at h; subst h; exact Or.inl ⟨rfl, rfl⟩
      · rcases finishMidi_midi _ _ _ _ _ _ _ _ h with ⟨h1, _, h3⟩ | ⟨h1, _, h3⟩
        · exact Or.inl ⟨h1, h3⟩
        · exact Or.inr ⟨_, h1, rfl, h3⟩
    · simp only [Except.ok.injEq] at h; subst h; exact Or.inl ⟨rfl, rfl⟩

/-- indexById only throws on a metadata body that fails to parse. -/
lemma indexById_isOk_of_not_badBody (st : DBState) (id : Nat) (operator : String)
    (e : IndexEnv) (h : e.fetch ≠ FetchOutcome.badBody) :
    ∃ o, indexById st id operator e = Except.ok o := by
  unfold indexById
  split
  · exact ⟨_, rfl⟩
  · exact absurd (by assumption) h
  · split
    · split
      · split
        · unfold finishMidi; split <;> exact ⟨_, rfl⟩
        · exact ⟨_, rfl⟩
      · unfold finishMidi; split <;> exact ⟨_, rfl⟩
    · exact ⟨_, rfl⟩

/-! Helper lemmas about the reconciliation sweep. -/

/-- The sweep loop never touches the queue (the sweep never enqueues). -/
lemma syncLoop_queue (events : List MintEvent) (env : Nat → IndexEnv) :
    ∀ (ids : List Nat) (st : DBState),
      (syncLoop events env ids st).st.queue = st.queue := by
  intro ids
  induction ids with
  | nil => intro st; rfl
  | cons id rest ih =>
    intro st
    rcases hfm : fetchOriginalMinter events id with ⟨o1, lg⟩
    cases o1 with
    | none => simp only [syncLoop, hfm]
    | some operator =>
      cases hio : indexById st id operator (env id) with
      | error e => simp only [syncLoop, hfm, hio]; exact ih st
      | ok o =>
        simp only [syncLoop, hfm, hio]
        rw [ih o.st, indexById_queue _ _ _ _ _ hio]

/-- When every id in the list has a recoverable minter, the loop attempts
exactly the listed ids, in order. -/
lemma syncLoop_attempted_of_found (events : List MintEvent) (env : Nat → IndexEnv) :
    ∀ (ids : List Nat) (st : DBState),
      (∀ i ∈ ids, ((fetchOriginalMinter events i).1).isSome) →
      (syncLoop events env ids st).attempted = ids := by
  intro ids
  induction ids with
  | nil => intro st _; rfl
  | cons id rest ih =>
    intro st h
    have hh := h id (List.mem_cons_self _ _)
    rcases hfm : fetchOriginalMinter events id with ⟨o1, lg⟩
    rw [hfm] at hh
    cases o1 with
    | none => simp at hh
    | some operator =>
      have htail : ∀ i ∈ rest, ((fetchOriginalMinter events i).1).isSome :=
        fun i hi => h i (List.mem_cons_of_mem _ hi)
      cases hio : indexById st id operator (env id) with
      | error e =>
        simp only [syncLoop, hfm, hio]
        rw [ih st htail]
      | ok o =>
        simp only [syncLoop, hfm, hio]
        rw [ih o.st htail]

/-- When a prefix of the ids has recoverable minters and the next id has
none, the loop attempts the prefix plus that id, emits the failure log, and
stops: the ids after it are never reached. -/
lemma syncLoop_abort (events : List MintEvent) (env : Nat → IndexEnv) :
    ∀ (l1 : List Nat) (m : Nat) (l2 : List Nat) (st : DBState),
      (∀ i ∈ l1, ((fetchOriginalMinter events i).1).isSome) →
      (fetchOriginalMinter events m).1 = none →
      (syncLoop events env (l1 ++ m :: l2) st).attempted = l1 ++ [m] ∧
        LogEvent.operatorFetchFailed m ∈ (syncLoop events env (l1 ++ m :: l2) st).logs := by
  intro l1
  induction l1 with
  | nil =>
    intro m l2 st _ hm
    rcases hfm : fetchOriginalMinter events m with ⟨o1, lg⟩
    rw [hfm] at hm
    subst hm
    constructor
    · simp [syncLoop, hfm]
    · simp [syncLoop, hfm]
  | cons a rest ih =>
    intro m l2 st h1 hm
    have ha := h1 a (List.mem_cons_self _ _)
    rcases hfm : fetchOriginalMinter events a with ⟨o1, lg⟩
    rw [hfm] at ha
    cases o1 with
    | none => simp at ha
    | some operator =>
      have htail : ∀ i ∈ rest, ((fetchOriginalMinter events i).1).isSome :=
        fun i hi => h1 i (List.mem_cons_of_mem _ hi)
      cases hio : indexById st a operator (env a) with
      | error e =>
        simp only [List.cons_append, syncLoop, hfm, hio]
        obtain ⟨hatt, hlog⟩ := ih m l2 st htail hm
        refine ⟨congrArg (List.cons a) hatt, ?_⟩
        have hlog2 : LogEvent.operatorFetchFailed m ∈
            (syncLoop events env (rest.append (m :: l2)) st).logs := hlog
        exact List.mem_append_right _ hlog2
      | ok o =>
        simp only [List.cons_append, syncLoop, hfm, hio]
        obtain ⟨hatt, hlog⟩ := ih m l2 o.st htail hm
        refine ⟨congrArg (List.cons a) hatt, ?_⟩
        have hlog2 : LogEvent.operatorFetchFailed m ∈
            (syncLoop events env (rest.append (m :: l2)) o.st).logs := hlog
        exact List.mem_append_right _ hlog2

/-- When the counter disagrees with the row count, the sweep runs the loop on
exactly the source's `unqueueDiff` list (`missingIds`). -/
lemma sync_eq_of_ne (currentId : Nat) (events : List MintEvent) (st : DBState)
    (env : Nat → IndexEnv) (h : currentId ≠ st.midi.length) :
    sync currentId events st env = syncLoop events env (missingIds currentId st) st := by
  simp only [sync]
  rw [if_pos (by simpa using h)]
  rfl

/-- When the counter equals the row count, the sweep does nothing. -/
lemma sync_eq_of_eq (currentId : Nat) (events : List MintEvent) (st : DBState)
    (env : Nat → IndexEnv) (h : currentId = st.midi.length) :
    sync currentId events st env = ⟨st, [], []⟩ := by
  simp only [sync]
  rw [if_neg (by simp [h])]

/-! Concrete fixtures used by witnesses and counterexamples. -/

/-- A metadata document with device `"X"` and manufacturer `"M"`. -/
def mdX : MIDIMetadata := ⟨⟨some "X", some "M"⟩⟩

/-- Historical mint events for ids 1..5, all from the zero address. -/
def wEvents : List MintEvent :=
  [⟨"opA", addressZero, 1⟩, ⟨"opB", addressZero, 2⟩, ⟨"opC", addressZero, 3⟩,
    ⟨"opD", addressZero, 4⟩, ⟨"opE", addressZero, 5⟩]

/-- A database holding Token Records for ids 1 and 3 and a Queue Entry for
id 4 (the reconciliation-completeness scenario of the spec). -/
def wSt : DBState :=
  ⟨[], [⟨1, mdX, 0, "opA"⟩, ⟨3, mdX, 0, "opC"⟩], [⟨4, "opD", "err", 0⟩], 0⟩

/-- An environment where every metadata fetch returns a non-ok response. -/
def wEnv : Nat → IndexEnv := fun _ => ⟨FetchOutcome.notOk, "uri", true, none⟩

/-- Historical mint events holding a minter for id 5 but none for id 2. -/
def cEvents : List MintEvent := [⟨"opE", addressZero, 5⟩]

/-- A database whose midi row count (2) equals an on-chain counter of 2 even
though the recorded ids are {1, 7}, not {1, 2}. -/
def stC10 : DBState := ⟨[], [⟨1, mdX, 0, "a"⟩, ⟨7, mdX, 0, "b"⟩], [], 0⟩

/-- C1: a reconciliation sweep attempts re-indexing exactly for the ids in
`[1..currentId]` that are in neither the database's id set nor the (bounded
fetch of the) queue's id set, and it acts only when `currentId` differs from
the Token Record count — provided the historical log yields a minter for
every such id (minter-lookup failure is the subject of C2). -/
theorem sync_attempts_exactly_missing (currentId : Nat) (events : List MintEvent)
    (st : DBState) (env : Nat → IndexEnv)
    (hmint : ∀ i ∈ missingIds currentId st, ((fetchOriginalMinter events i).1).isSome) :
    (currentId ≠ st.midi.length →
      (sync currentId events st env).attempted = missingIds currentId st) ∧
    (currentId = st.midi.length → sync currentId events st env = ⟨st, [], []⟩) := by
  constructor
  · intro h
    rw [sync_eq_of_ne currentId events st env h]
    exact syncLoop_attempted_of_found events env (missingIds currentId st) st hmint
  · intro h
    exact sync_eq_of_eq currentId events st env h

/-- C1 witness: with on-chain ids {1..5}, Token Records {1,3} and a Queue
Entry for 4, one sweep attempts exactly {2,5}. -/
theorem sync_attempts_exactly_missing_witness :
    missingIds 5 wSt = [2, 5] ∧ (sync 5 wEvents wSt wEnv).attempted = [2, 5] := by
  have h := (sync_attempts_exactly_missing 5 wEvents wSt wEnv (by decide)).1 (by decide)
  exact ⟨by decide, by rw [h]; decide⟩

/-- C2 counterexample: with missing ids {2,5} and a historical log in which
id 2 has no mint event but id 5 does, the sweep attempts only id 2 — the
failure for id 2 prevents id 5 from ever being processed in that sweep,
contradicting the claim that the sweep continues with the next missing id. -/
theorem sync_abort_cex :
    5 ∈ missingIds 5 wSt ∧ (fetchOriginalMinter cEvents 2).1 = none ∧
      (sync 5 cEvents wSt wEnv).attempted = [2] ∧
      5 ∉ (sync 5 cEvents wSt wEnv).attempted := by decide

/-- C2 (amended): when the original minter for a missing id cannot be found
in the historical event log, that id is skipped and logged and is not
enqueued, but the sweep `return`s immediately: the ids before it are
processed, the failing id is the last one attempted, and the remaining
missing ids are not processed in that sweep. -/
theorem sync_minter_failure_aborts (currentId : Nat) (events : List MintEvent)
    (st : DBState) (env : Nat → IndexEnv) (l1 l2 : List Nat) (m : Nat)
    (hne : currentId ≠ st.midi.length)
    (hsplit : missingIds currentId st = l1 ++ m :: l2)
    (h1 : ∀ i ∈ l1, ((fetchOriginalMinter events i).1).isSome)
    (hm : (fetchOriginalMinter events m).1 = none) :
    (sync currentId events st env).attempted = l1 ++ [m] ∧
      LogEvent.operatorFetchFailed m ∈ (sync currentId events st env).logs ∧
      (sync currentId events st env).st.queue = st.queue := by
  rw [sync_eq_of_ne currentId events st env hne, hsplit]
  obtain ⟨hatt, hlog⟩ := syncLoop_abort events env l1 m l2 st h1 hm
  exact ⟨hatt, hlog, syncLoop_queue events env _ st⟩

/-- C2 amended-claim witness at the concrete {2,5} scenario. -/
theorem sync_minter_failure_aborts_witness :
    (sync 5 cEvents wSt wEnv).attempted = [2] ∧
      LogEvent.operatorFetchFailed 2 ∈ (sync 5 cEvents wSt wEnv).logs ∧
      (sync 5 cEvents wSt wEnv).st.queue = wSt.queue := by
  have h := sync_minter_failure_aborts 5 cEvents wSt wEnv [] [5] 2
    (by decide) (by decide) (by decide) (by decide)
  simpa using h

/-- C10: whenever the on-chain counter equals the number of midi rows, the
sweep does nothing at all — no minter lookup, no indexing, no state change —
row-count equality alone gates the sweep, regardless of which ids the rows
carry. -/
theorem sync_noop_when_count_matches (currentId : Nat) (events : List MintEvent)
    (st : DBState) (env : Nat → IndexEnv) (h : currentId = st.midi.length) :
    sync currentId events st env = ⟨st, [], []⟩ :=
  sync_eq_of_eq currentId events st env h

/-- C10 witness: counter 2 with recorded ids {1, 7} — id 2 has no Token
Record, yet the sweep does nothing because the row count matches. -/
theorem sync_noop_when_count_matches_witness :
    (stC10.midi.map TokenRecord.id).contains 2 = false ∧
      sync 2 wEvents stC10 wEnv = ⟨stC10, [], []⟩ :=
  ⟨by decide, sync_noop_when_count_matches 2 wEvents stC10 wEnv (by decide)⟩

/-! Disambiguating the error messages `indexById` can return: they differ in
their first character, so no composed device-create or midi-create message
can collide with the fixed missing-device message. -/

/-- A device-create failure message never equals the missing-device
message. -/
lemma createMsg_ne_missing (x d : String) :
    ("creating device failed failed for " ++ x ++ ": " ++ d) ≠
      "no metadata.properties.device property" := by
  intro h
  have h2 := congrArg String.data h
  rw [String.data_append, String.data_append, String.data_append] at h2
  have hA : "creating device failed failed for ".data =
      'c' :: "reating device failed failed for ".data := rfl
  have hB : "no metadata.properties.device property".data =
      'n' :: "o metadata.properties.device property".data := rfl
  rw [hA, hB] at h2
  simp only [List.cons_append] at h2
  exact absurd (List.head_eq_of_cons_eq h2) (by decide)

/-- A midi-create failure message never equals the missing-device message. -/
lemma midiMsg_ne_missing (x d : String) :
    ("failed creating midi: " ++ x ++ " " ++ d) ≠
      "no metadata.properties.device property" := by
  intro h
  have h2 := congrArg String.data h
  rw [String.data_append, String.data_append, String.data_append] at h2
  have hA : "failed creating midi: ".data = 'f' :: "ailed creating midi: ".data := rfl
  have hB : "no metadata.properties.device property".data =
      'n' :: "o metadata.properties.device property".data := rfl
  rw [hA, hB] at h2
  simp only [List.cons_append] at h2
  exact absurd (List.head_eq_of_cons_eq h2) (by decide)

/-- On a parsed document whose `properties.device` is absent or empty,
`indexById` returns the missing-device error and leaves the state
untouched. -/
lemma indexById_missing_eq (st : DBState) (id : Nat) (operator : String)
    (e : IndexEnv) (m : MIDIMetadata) (hm : e.fetch = FetchOutcome.ok m)
    (hf : strTruthy m.properties.device = false) :
    indexById st id operator e =
      Except.ok ⟨some "no metadata.properties.device property", st,
        [LogEvent.metadataIs]⟩ := by
  unfold indexById
  rw [hm]
  simp [hf]

/-- C6: with `properties.device` absent or empty, indexing fails with the
missing-device error and creates no Device Record and no Token Record (the
state is returned unchanged); with `properties.device` present and
non-empty, the operation gets past this check — its result is never the
missing-device error. -/
theorem index_missing_device (st : DBState) (id : Nat) (operator : String)
    (e : IndexEnv) (m : MIDIMetadata) (hm : e.fetch = FetchOutcome.ok m) :
    (strTruthy m.properties.device = false →
      indexById st id operator e =
        Except.ok ⟨some "no metadata.properties.device property", st,
          [LogEvent.metadataIs]⟩) ∧
    (strTruthy m.properties.device = true →
      ∀ o, indexById st id operator e = Except.ok o →
        o.error ≠ some "no metadata.properties.device property") := by
  constructor
  · intro hf
    exact indexById_missing_eq st id operator e m hm hf
  · intro ht o hok herr
    unfold indexById at hok
    simp only [hm] at hok
    rw [if_pos ht] at hok
    cases hfind : st.devices.find? (fun dv => dv.name == m.properties.device.getD "") with
    | none =>
      rw [hfind] at hok
      cases hdc : e.deviceCreateOk with
      | true =>
        rw [hdc, if_pos rfl] at hok
        unfold finishMidi at hok
        cases hme : e.midiCreateError with
        | some er =>
          rw [hme] at hok
          simp only [Except.ok.injEq] at hok
          subst hok
          exact midiMsg_ne_missing er.details er.message (Option.some.inj herr)
        | none =>
          rw [hme] at hok
          simp only [Except.ok.injEq] at hok
          subst hok
          exact Option.noConfusion herr
      | false =>
        rw [hdc] at hok
        rw [if_neg (by simp)] at hok
        simp only [Except.ok.injEq] at hok
        subst hok
        exact createMsg_ne_missing (jsOptString m.properties.manufacturer)
          (m.properties.device.getD "") (Option.some.inj herr)
    | some dv =>
      rw [hfind] at hok
      unfold finishMidi at hok
      cases hme : e.midiCreateError with
      | some er =>
        rw [hme] at hok
        simp only [Except.ok.injEq] at hok
        subst hok
        exact midiMsg_ne_missing er.details er.message (Option.some.inj herr)
      | none =>
        rw [hme] at hok
        simp only [Except.ok.injEq] at hok
        subst hok
        exact Option.noConfusion herr

/-- C6 witness: a document with no `properties.device` at all fails with the
missing-device error against the empty database, changing nothing. -/
theorem index_missing_device_witness :
    indexById emptyDB 1 "op" ⟨FetchOutcome.ok ⟨⟨none, none⟩⟩, "u", true, none⟩ =
      Except.ok ⟨some "no metadata.properties.device property", emptyDB,
        [LogEvent.metadataIs]⟩ :=
  (index_missing_device emptyDB 1 "op" _ ⟨⟨none, none⟩⟩ rfl).1 rfl

/-- C7: a transfer event whose `from` address is not the zero address never
triggers indexing and performs no database write: the handler only logs the
event and returns the state unchanged. -/
theorem handler_ignores_nonmint (st : DBState) (operator fromAddr toAddr : String)
    (id : Nat) (e : IndexEnv) (h : fromAddr ≠ addressZero) :
    handleTransferSingle st operator fromAddr toAddr id e =
      Except.ok ⟨st, [LogEvent.eventReceived operator fromAddr toAddr id], false⟩ := by
  unfold handleTransferSingle
  rw [if_neg (by simpa using h)]

/-- C7 witness: an ordinary transfer from `"0xabc"` is ignored. -/
theorem handler_ignores_nonmint_witness :
    handleTransferSingle emptyDB "op" "0xabc" "to" 1 (wEnv 0) =
      Except.ok ⟨emptyDB, [LogEvent.eventReceived "op" "0xabc" "to" 1], false⟩ :=
  handler_ignores_nonmint emptyDB "op" "0xabc" "to" 1 (wEnv 0) (by decide)

/-- C4 counterexample: a mint event whose metadata body is not well-formed
JSON makes `res.json()` throw inside `fetchMetadata`; no caller catches it,
so the handler itself throws — the failure is not captured as a value and
nothing is enqueued. There is no `parse-error` failure value in the code. -/
theorem handler_throws_cex :
    handleTransferSingle emptyDB "op" addressZero "to" 7
        ⟨FetchOutcome.badBody, "u", true, none⟩ = Except.error () := rfl

/-- C4 (amended): for every received transfer event whose metadata body
parses (every failure mode except a malformed body), the handler never
raises: it returns normally, and any indexing failure is routed to the retry
queue as a new entry; a malformed metadata body, however, escapes the handler
as an uncaught exception. -/
theorem handler_total_unless_bad_body (st : DBState) (operator fromAddr toAddr : String)
    (id : Nat) (e : IndexEnv) (h : e.fetch ≠ FetchOutcome.badBody) :
    ∃ out, handleTransferSingle st operator fromAddr toAddr id e = Except.ok out ∧
      (out.st.queue = st.queue ∨
        ∃ msg, out.st.queue = st.queue ++ [⟨id, operator, msg, 0⟩]) := by
  unfold handleTransferSingle
  by_cases hf : (fromAddr == addressZero) = true
  · rw [if_pos hf]
    obtain ⟨o, ho⟩ := indexById_isOk_of_not_badBody st id operator e h
    simp only [ho]
    cases he : o.error with
    | some msg =>
      simp only [he]
      refine ⟨_, rfl, Or.inr ⟨msg, ?_⟩⟩
      show o.st.queue ++ [⟨id, operator, msg, 0⟩] = st.queue ++ [⟨id, operator, msg, 0⟩]
      rw [indexById_queue _ _ _ _ _ ho]
    | none =>
      simp only [he]
      exact ⟨_, rfl, Or.inl (indexById_queue _ _ _ _ _ ho)⟩
  · rw [if_neg hf]
    exact ⟨_, rfl, Or.inl rfl⟩

/-- C4 amended-claim witness: a mint event whose fetch returns a non-ok
response is captured and enqueued, not raised. -/
theorem handler_total_unless_bad_body_witness :
    ∃ out, handleTransferSingle emptyDB "op" addressZero "to" 3 (wEnv 0) = Except.ok out ∧
      (out.st.queue = emptyDB.queue ∨
        ∃ msg, out.st.queue = emptyDB.queue ++ [⟨3, "op", msg, 0⟩]) :=
  handler_total_unless_bad_body emptyDB "op" addressZero "to" 3 (wEnv 0) (by decide)

/-! Helper lemmas about the drain loop, used by C3 and C8. -/

/-- queueUpdate does not touch the midi table. -/
lemma queueUpdate_midi (st : DBState) (id attempts : Nat) (err : String) :
    (queueUpdate st id attempts err).midi = st.midi := rfl

/-- Midi rows survive the rest of a drain loop. -/
lemma drainLoop_midi_mono (env : Nat → IndexEnv) :
    ∀ (rows : List QueueEntry) (st : DBState) (t : TokenRecord),
      t ∈ st.midi → t ∈ (drainLoop env rows st).st.midi := by
  intro rows
  induction rows with
  | nil => intro st t ht; exact ht
  | cons r rest ih =>
    intro st t ht
    cases hio : indexById st r.id r.operator (env r.id) with
    | error e => simp only [drainLoop, hio]; exact ht
    | ok o =>
      have hto : t ∈ o.st.midi := by
        rcases indexById_midi _ _ _ _ _ hio with ⟨h1, _⟩ | ⟨t2, h1, _, _⟩
        · rw [h1]; exact ht
        · rw [h1]; exact List.mem_append_left _ ht
      cases he : o.error with
      | some msg =>
        simp only [drainLoop, hio, he]
        exact ih _ t hto
      | none =>
        simp only [drainLoop, hio, he]
        exact ih _ t hto

/-- Every entry the drain loop processes with a successful result has a
token row for its id in the final state. -/
lemma drainLoop_success_token (env : Nat → IndexEnv) :
    ∀ (rows : List QueueEntry) (st : DBState) (r : QueueEntry),
      (r, (none : Option String)) ∈ (drainLoop env rows st).processed →
      ∃ t ∈ (drainLoop env rows st).st.midi, t.id = r.id := by
  intro rows
  induction rows with
  | nil => intro st r hr; exact absurd hr (List.not_mem_nil _)
  | cons rcur rest ih =>
    intro st r hr
    cases hio : indexById st rcur.id rcur.operator (env rcur.id) with
    | error e =>
      simp only [drainLoop, hio] at hr ⊢
      exact absurd hr (List.not_mem_nil _)
    | ok o =>
      cases he : o.error with
      | some msg =>
        simp only [drainLoop, hio, he] at hr ⊢
        rcases List.mem_cons.mp hr with hhd | htl
        · exact absurd (congrArg Prod.snd hhd) (by simp)
        · exact ih (queueUpdate o.st rcur.id (rcur.attempts + 1) msg) r htl
      | none =>
        simp only [drainLoop, hio, he] at hr ⊢
        rcases List.mem_cons.mp hr with hhd | htl
        · have hreq : r = rcur := congrArg Prod.fst hhd
          subst hreq
          rcases indexById_midi _ _ _ _ _ hio with ⟨_, h2⟩ | ⟨t, h1, h2, _⟩
          · rw [he] at h2; exact absurd h2 (by simp)
          · refine ⟨t, ?_, h2⟩
            exact drainLoop_midi_mono env rest o.st t
              (h1 ▸ List.mem_append_right _ (List.mem_singleton.mpr rfl))
        · exact ih o.st r htl

/-- C3: if a mint event's indexing attempt fails with a message, a Queue
Entry for that id with the originating operator, that message, and attempt
count 0 is in the queue afterward; and every queue entry whose drain-path
retry of `indexById` succeeds has a Token Record for its id afterward. -/
theorem queue_correctness (st : DBState) (operator toAddr : String) (id : Nat)
    (e : IndexEnv) (out : HandlerOutput) (o : IndexOutput) (msg : String)
    (hh : handleTransferSingle st operator addressZero toAddr id e = Except.ok out)
    (hi : indexById st id operator e = Except.ok o)
    (he : o.error = some msg) :
    (⟨id, operator, msg, 0⟩ : QueueEntry) ∈ out.st.queue ∧
      ∀ (st2 : DBState) (env : Nat → IndexEnv) (r : QueueEntry),
        (r, (none : Option String)) ∈ (drainTick st2 env).processed →
        ∃ t ∈ (drainTick st2 env).st.midi, t.id = r.id := by
  constructor
  · unfold handleTransferSingle at hh
    rw [if_pos (by simp)] at hh
    simp only [hi, he] at hh
    simp only [Except.ok.injEq] at hh
    subst hh
    exact List.mem_append_right _ (List.mem_singleton.mpr rfl)
  · intro st2 env r hr
    exact drainLoop_success_token env (st2.queue.take 10) st2 r hr

/-- The handler output of a mint event for id 3 whose metadata fetch is not
ok: the failure is enqueued with attempt count 0. -/
def outW : HandlerOutput :=
  ⟨⟨[], [], [⟨3, "op", "failed fetching metadata", 0⟩], 0⟩,
    [LogEvent.eventReceived "op" addressZero "to" 3, LogEvent.fetchError "uri"], true⟩

/-- The indexById output for that failing attempt. -/
def oNotOk : IndexOutput :=
  ⟨some "failed fetching metadata", emptyDB, [LogEvent.fetchError "uri"]⟩

/-- A database whose queue holds the failed entry for id 3. -/
def st2W : DBState := ⟨[], [], [⟨3, "op", "failed fetching metadata", 0⟩], 0⟩

/-- An environment in which every fetch yields the device-X document and
every database write succeeds. -/
def envOkW : Nat → IndexEnv := fun _ => ⟨FetchOutcome.ok mdX, "u", true, none⟩

/-- C3 witness: the failed mint for id 3 is enqueued with attempts 0 and the
failure's message, and the successful drain retry leaves a Token Record for
id 3. -/
theorem queue_correctness_witness :
    (⟨3, "op", "failed fetching metadata", 0⟩ : QueueEntry) ∈ outW.st.queue ∧
      ∃ t ∈ (drainTick st2W envOkW).st.midi, t.id = 3 := by
  have h := queue_correctness emptyDB "op" "to" 3 (wEnv 0) outW oNotOk
    "failed fetching metadata" rfl rfl rfl
  exact ⟨h.1, h.2 st2W envOkW ⟨3, "op", "failed fetching metadata", 0⟩ (by decide)⟩

/-- An environment where the fetched document resolves, the device row must
be created, and the midi write then fails. -/
def eC5 : IndexEnv := ⟨FetchOutcome.ok mdX, "u", true, some ⟨"det", "msg"⟩⟩

/-- The output of `indexById` under `eC5` on the empty database: the device
row was created, the midi write failed, the device row stays behind. -/
def oC5 : IndexOutput :=
  ⟨some "failed creating midi: det msg", ⟨[⟨0, "X", "M"⟩], [], [], 1⟩,
    [LogEvent.metadataIs, LogEvent.midiCreateError]⟩

/-- A list is never equal to itself with one more element appended. -/
lemma no_self_append {α : Type} (l : List α) (a : α) : l ≠ l ++ [a] := by
  simp

/-- C5 counterexample: when the midi write fails after the device row was
created, the invocation ends in an error having changed the state (one new
Device Record) while writing no Token Record — neither of the claim's two
allowed outcomes. -/
theorem index_orphan_device_cex :
    indexById emptyDB 1 "op" eC5 = Except.ok oC5 ∧
      oC5.st ≠ emptyDB ∧ oC5.st.midi = emptyDB.midi ∧ oC5.error.isSome :=
  ⟨rfl, by decide, rfl, rfl⟩

/-- C5 (amended): every `indexById` invocation creates at most one Device
Record — and only when no Device Record with that name already exists — and
at most one Token Record, never touches the queue, and any Token Record it
writes references a device row present afterwards; when device creation
fails the operation returns the device-create-failure error and makes no
state change at all (aborting before the token write); but when the token
write fails after a device row was created, the new Device Record persists
with no Token Record. -/
theorem index_frame (st : DBState) (id : Nat) (operator : String) (e : IndexEnv)
    (o : IndexOutput) (h : indexById st id operator e = Except.ok o) :
    (o.st.devices = st.devices ∨ ∃ d, o.st.devices = st.devices ++ [d]) ∧
      (∀ d, o.st.devices = st.devices ++ [d] →
        st.devices.find? (fun dv => dv.name == d.name) = none) ∧
      (o.st.midi = st.midi ∨ ∃ t, o.st.midi = st.midi ++ [t]) ∧
      o.st.queue = st.queue ∧
      (∀ t, o.st.midi = st.midi ++ [t] → ∃ d ∈ o.st.devices, d.id = t.device) ∧
      (∀ m, e.fetch = FetchOutcome.ok m → strTruthy m.properties.device = true →
        st.devices.find? (fun dv => dv.name == m.properties.device.getD "") = none →
        e.deviceCreateOk = false →
        o.st = st ∧
          o.error = some ("creating device failed failed for "
            ++ jsOptString m.properties.manufacturer ++ ": "
            ++ m.properties.device.getD "")) := by
  unfold indexById at h
  cases hf : e.fetch with
  | notOk =>
    simp only [hf] at h
    simp only [Except.ok.injEq] at h
    subst h
    refine ⟨Or.inl rfl, ?_, Or.inl rfl, rfl, ?_, ?_⟩
    · intro d hd; exact absurd hd (no_self_append st.devices d)
    · intro t ht; exact absurd ht (no_self_append st.midi t)
    · intro m2 hm2; exact FetchOutcome.noConfusion hm2
  | badBody =>
    simp only [hf] at h
    exact Except.noConfusion h
  | ok m =>
    simp only [hf] at h
    cases ht : strTruthy m.properties.device with
    | true =>
      rw [if_pos ht] at h
      cases hfind : st.devices.find? (fun dv => dv.name == m.properties.device.getD "") with
      | none =>
        simp only [hfind] at h
        cases hdc : e.deviceCreateOk with
        | true =>
          rw [if_pos hdc] at h
          unfold finishMidi at h
          cases hme : e.midiCreateError with
          | some er =>
            simp only [hme, Except.ok.injEq] at h
            subst h
            refine ⟨Or.inr ⟨_, rfl⟩, ?_, Or.inl rfl, rfl, ?_, ?_⟩
            · intro d hd
              have h3 : ([⟨st.nextDeviceId, m.properties.device.getD "",
                  m.properties.manufacturer.getD ""⟩] : List Device) = [d] :=
                List.append_cancel_left hd
              have h4 : (⟨st.nextDeviceId, m.properties.device.getD "",
                  m.properties.manufacturer.getD ""⟩ : Device) = d := by
                simpa using h3
              rw [← h4]
              exact hfind
            · intro t htk; exact absurd htk (no_self_append st.midi t)
            · intro m2 hm2 ht2 hfind2 hdc2
              exact absurd hdc2 (by decide)
          | none =>
            simp only [hme, Except.ok.injEq] at h
            subst h
            refine ⟨Or.inr ⟨_, rfl⟩, ?_, Or.inr ⟨_, rfl⟩, rfl, ?_, ?_⟩
            · intro d hd
              have h5 : ([⟨st.nextDeviceId, m.properties.device.getD "",
                  m.properties.manufacturer.getD ""⟩] : List Device) = [d] :=
                List.append_cancel_left hd
              have h6 : (⟨st.nextDeviceId, m.properties.device.getD "",
                  m.properties.manufacturer.getD ""⟩ : Device) = d := by
                simpa using h5
              rw [← h6]
              exact hfind
            · intro t htk
              have h3 : ([⟨id, m, st.nextDeviceId, operator⟩] : List TokenRecord) = [t] :=
                List.append_cancel_left htk
              have h4 : (⟨id, m, st.nextDeviceId, operator⟩ : TokenRecord) = t := by
                simpa using h3
              refine ⟨⟨st.nextDeviceId, m.properties.device.getD "",
                m.properties.manufacturer.getD ""⟩, ?_, ?_⟩
              · exact List.mem_append_right _ (List.mem_singleton.mpr rfl)
              · rw [← h4]
            · intro m2 hm2 ht2 hfind2 hdc2
              exact absurd hdc2 (by decide)
        | false =>
          rw [if_neg (by simp [hdc])] at h
          simp only [Except.ok.injEq] at h
          subst h
          refine ⟨Or.inl rfl, ?_, Or.inl rfl, rfl, ?_, ?_⟩
          · intro d hd; exact absurd hd (no_self_append st.devices d)
          · intro t htk; exact absurd htk (no_self_append st.midi t)
          · intro m2 hm2 ht2 hfind2 hdc2
            have hm3 : m = m2 := FetchOutcome.ok.inj hm2
            subst hm3
            exact ⟨rfl, rfl⟩
      | some dv =>
        simp only [hfind] at h
        unfold finishMidi at h
        cases hme : e.midiCreateError with
        | some er =>
          simp only [hme, Except.ok.injEq] at h
          subst h
          refine ⟨Or.inl rfl, ?_, Or.inl rfl, rfl, ?_, ?_⟩
          · intro d hd; exact absurd hd (no_self_append st.devices d)
          · intro t htk; exact absurd htk (no_self_append st.midi t)
          · intro m2 hm2 ht2 hfind2 hdc2
            have hm3 : m = m2 := FetchOutcome.ok.inj hm2
            subst hm3
            rw [hfind] at hfind2
            exact Option.noConfusion hfind2
        | none =>
          simp only [hme, Except.ok.injEq] at h
          subst h
          refine ⟨Or.inl rfl, ?_, Or.inr ⟨_, rfl⟩, rfl, ?_, ?_⟩
          · intro d hd; exact absurd hd (no_self_append st.devices d)
          · intro t htk
            have h3 : ([⟨id, m, dv.id, operator⟩] : List TokenRecord) = [t] :=
              List.append_cancel_left htk
            have h4 : (⟨id, m, dv.id, operator⟩ : TokenRecord) = t := by
              simpa using h3
            exact ⟨dv, List.mem_of_find?_eq_some hfind, by rw [← h4]⟩
          · intro m2 hm2 ht2 hfind2 hdc2
            have hm3 : m = m2 := FetchOutcome.ok.inj hm2
            subst hm3
            rw [hfind] at hfind2
            exact Option.noConfusion hfind2
    | false =>
      rw [if_neg (by simp [ht])] at h
      simp only [Except.ok.injEq] at h
      subst h
      refine ⟨Or.inl rfl, ?_, Or.inl rfl, rfl, ?_, ?_⟩
      · intro d hd; exact absurd hd (no_self_append st.devices d)
      · intro t htk; exact absurd htk (no_self_append st.midi t)
      · intro m2 hm2 ht2 hfind2 hdc2
        have hm3 : m = m2 := FetchOutcome.ok.inj hm2
        subst hm3
        rw [ht] at ht2
        exact absurd ht2 (by decide)

/-- An environment whose fetch resolves to the device-X document and whose
database writes all succeed. -/
def eOkW : IndexEnv := ⟨FetchOutcome.ok mdX, "u", true, none⟩

/-- The output of a fully successful `indexById` run on the empty database:
one created device row and one token row. -/
def oOkW : IndexOutput :=
  ⟨none, ⟨[⟨0, "X", "M"⟩], [⟨1, mdX, 0, "op"⟩], [], 1⟩, [LogEvent.metadataIs]⟩

/-- C5 amended-claim witness: a successful run against the empty database
satisfies every frame conjunct. -/
theorem index_frame_witness :
    (oOkW.st.devices = emptyDB.devices ∨ ∃ d, oOkW.st.devices = emptyDB.devices ++ [d]) ∧
      (∀ d, oOkW.st.devices = emptyDB.devices ++ [d] →
        emptyDB.devices.find? (fun dv => dv.name == d.name) = none) ∧
      (oOkW.st.midi = emptyDB.midi ∨ ∃ t, oOkW.st.midi = emptyDB.midi ++ [t]) ∧
      oOkW.st.queue = emptyDB.queue ∧
      (∀ t, oOkW.st.midi = emptyDB.midi ++ [t] → ∃ d ∈ oOkW.st.devices, d.id = t.device) ∧
      (∀ m, eOkW.fetch = FetchOutcome.ok m → strTruthy m.properties.device = true →
        emptyDB.devices.find? (fun dv => dv.name == m.properties.device.getD "") = none →
        eOkW.deviceCreateOk = false →
        oOkW.st = emptyDB ∧
          oOkW.error = some ("creating device failed failed for "
            ++ jsOptString m.properties.manufacturer ++ ": "
            ++ m.properties.device.getD "")) :=
  index_frame emptyDB 1 "op" eOkW oOkW rfl

/-! Helper lemmas for the queue-drain tick (C8). -/

/-- When no batch entry's metadata body is malformed, the tick runs to the
end: nothing aborts, the processed entries are exactly the fetched batch in
order, and the attempted ids are the batch ids in order. -/
lemma drainLoop_no_abort (env : Nat → IndexEnv) :
    ∀ (rows : List QueueEntry) (st : DBState),
      (∀ r ∈ rows, (env r.id).fetch ≠ FetchOutcome.badBody) →
      (drainLoop env rows st).aborted = false ∧
        (drainLoop env rows st).processed.map Prod.fst = rows ∧
        (drainLoop env rows st).attempted = rows.map QueueEntry.id := by
  intro rows
  induction rows with
  | nil => intro st _; exact ⟨rfl, rfl, rfl⟩
  | cons r rest ih =>
    intro st h
    obtain ⟨o, ho⟩ := indexById_isOk_of_not_badBody st r.id r.operator (env r.id)
      (h r (List.mem_cons_self _ _))
    have htail : ∀ i ∈ rest, (env i.id).fetch ≠ FetchOutcome.badBody :=
      fun i hi => h i (List.mem_cons_of_mem _ hi)
    cases he : o.error with
    | some msg =>
      simp only [drainLoop, ho, he]
      obtain ⟨h1, h2, h3⟩ := ih (queueUpdate o.st r.id (r.attempts + 1) msg) htail
      exact ⟨h1, by simp [h2], by simp [h3]⟩
    | none =>
      simp only [drainLoop, ho, he]
      obtain ⟨h1, h2, h3⟩ := ih o.st htail
      exact ⟨h1, by simp [h2], by simp [h3]⟩

/-- The update calls of a tick are exactly one call per processed entry that
failed again, carrying that entry's attempts + 1 and the new message. -/
lemma drainLoop_updates (env : Nat → IndexEnv) :
    ∀ (rows : List QueueEntry) (st : DBState),
      (drainLoop env rows st).updates =
        (drainLoop env rows st).processed.filterMap
          (fun p => p.2.map (fun msg => (p.1.id, p.1.attempts + 1, msg))) := by
  intro rows
  induction rows with
  | nil => intro st; rfl
  | cons r rest ih =>
    intro st
    cases hio : indexById st r.id r.operator (env r.id) with
    | error e => simp only [drainLoop, hio]; rfl
    | ok o =>
      cases he : o.error with
      | some msg =>
        simp only [drainLoop, hio, he, List.filterMap_cons]
        simp [ih]
      | none =>
        simp only [drainLoop, hio, he, List.filterMap_cons]
        simp [ih]

/-- C8 (amended): each tick fetches at most 10 entries; when no entry's
metadata body is malformed, the batch is processed sequentially in order to
the end, `update` is called exactly for the entries whose retry returned an
error — with that entry's attempts + 1 and the latest message — and no
update is made for entries whose retry succeeded. (A retry that throws —
malformed body — aborts the tick: see the counterexample.) -/
theorem drain_tick_spec (st : DBState) (env : Nat → IndexEnv)
    (h : ∀ r ∈ st.queue.take 10, (env r.id).fetch ≠ FetchOutcome.badBody) :
    (drainTick st env).aborted = false ∧
      (drainTick st env).processed.map Prod.fst = st.queue.take 10 ∧
      (drainTick st env).attempted.length ≤ 10 ∧
      (drainTick st env).updates =
        (drainTick st env).processed.filterMap
          (fun p => p.2.map (fun msg => (p.1.id, p.1.attempts + 1, msg))) := by
  obtain ⟨h1, h2, h3⟩ := drainLoop_no_abort env (st.queue.take 10) st h
  refine ⟨h1, h2, ?_, drainLoop_updates env (st.queue.take 10) st⟩
  have h4 : (drainTick st env).attempted = (st.queue.take 10).map QueueEntry.id := h3
  rw [h4, List.length_map, List.length_take]
  exact min_le_left _ _

/-- C8 witness: a one-entry queue whose retry succeeds drains without any
update call. -/
theorem drain_tick_spec_witness :
    (drainTick st2W envOkW).aborted = false ∧
      (drainTick st2W envOkW).processed.map Prod.fst = st2W.queue.take 10 ∧
      (drainTick st2W envOkW).attempted.length ≤ 10 ∧
      (drainTick st2W envOkW).updates =
        (drainTick st2W envOkW).processed.filterMap
          (fun p => p.2.map (fun msg => (p.1.id, p.1.attempts + 1, msg))) :=
  drain_tick_spec st2W envOkW (by decide)

/-- A queue with two entries where the first entry's retry throws (malformed
metadata body). -/
def stC8 : DBState := ⟨[], [], [⟨1, "a", "e1", 0⟩, ⟨2, "b", "e2", 0⟩], 0⟩

/-- An environment whose metadata body is malformed for id 1 and fine for
everything else. -/
def envC8 : Nat → IndexEnv := fun i =>
  if i = 1 then ⟨FetchOutcome.badBody, "u", true, none⟩
  else ⟨FetchOutcome.ok mdX, "u", true, none⟩

/-- C8 counterexample: the first entry's retry fails by throwing, yet no
`update` with attempts + 1 is recorded for it, and the second batch entry is
never re-attempted — the tick is aborted with the state untouched. -/
theorem drain_abort_cex :
    (drainTick stC8 envC8).aborted = true ∧ (drainTick stC8 envC8).updates = [] ∧
      (drainTick stC8 envC8).attempted = [1] ∧ (drainTick stC8 envC8).st = stC8 := by
  decide

/-- Historical mint events providing a minter for id 1. -/
def ev9 : List MintEvent := [⟨"op", addressZero, 1⟩]

/-- An environment whose metadata documents all lack `properties.device`. -/
def env9 : Nat → IndexEnv := fun _ => ⟨FetchOutcome.ok ⟨⟨none, none⟩⟩, "u", true, none⟩

/-- C9 counterexample: the sweep re-drives id 1, whose indexing fails with
the missing-device error; afterwards there is no Token Record for 1, no
Queue Entry for 1 (the state is exactly the input state), and the only
console output is the metadata success print — no failure or skip log. The
failure is dropped silently. -/
theorem sync_silent_drop_cex :
    (sync 1 ev9 emptyDB env9).attempted = [1] ∧
      (sync 1 ev9 emptyDB env9).st = emptyDB ∧
      (sync 1 ev9 emptyDB env9).logs = [LogEvent.metadataIs] := by decide

/-- C9 (amended): failures on the live path are enqueued, drain-path
failures update their entry, and the sweep's minter-not-found case is
logged; but the reconciliation sweep never writes to the queue at all, and a
missing-device failure during the sweep leaves the state unchanged while
producing only the metadata success log — such a failure surfaces nowhere. -/
theorem sync_failures_dropped (currentId : Nat) (events : List MintEvent)
    (st : DBState) (env : Nat → IndexEnv) :
    (sync currentId events st env).st.queue = st.queue ∧
      (∀ id operator m, (env id).fetch = FetchOutcome.ok m →
        strTruthy m.properties.device = false →
        ∀ st3 : DBState, indexById st3 id operator (env id) =
          Except.ok ⟨some "no metadata.properties.device property", st3,
            [LogEvent.metadataIs]⟩) := by
  constructor
  · by_cases hc : currentId = st.midi.length
    · rw [sync_eq_of_eq currentId events st env hc]
    · rw [sync_eq_of_ne currentId events st env hc]
      exact syncLoop_queue events env _ st
  · intro id operator m hm hfalse st3
    exact indexById_missing_eq st3 id operator (env id) m hm hfalse

/-- C9 amended-claim witness at the concrete silent-drop scenario. -/
theorem sync_failures_dropped_witness :
    (sync 1 ev9 emptyDB env9).st.queue = emptyDB.queue ∧
      indexById emptyDB 1 "op" (env9 1) =
        Except.ok ⟨some "no metadata.properties.device property", emptyDB,
          [LogEvent.metadataIs]⟩ := by
  have h := sync_failures_dropped 1 ev9 emptyDB env9
  exact ⟨h.1, h.2 1 "op" ⟨⟨none, none⟩⟩ rfl rfl emptyDB⟩

end MidiIndexer
